import Mathlib

/-!
Shallow embedding of `src/web/src/app/util/TelTextField.tsx`.

The component normalizes phone-number / SID-style identifier input,
debounces the value, decides whether to issue a remote validity lookup,
and renders a valid/invalid adornment icon.  Each definition below mirrors
one construct of the source file.
-/

/-- The accepted input kinds of the field (the TS union `'tel' | 'sid'`). -/
inductive InputType
  | tel
  | sid
deriving DecidableEq, Repr

/-- Source line 48: `inputTypes.length === 1 && inputTypes[0] === 'tel'`. -/
def onlyTel (inputTypes : List InputType) : Bool :=
  match inputTypes with
  | [t] => t == InputType.tel
  | _ => false

/-- Source line 49: `inputTypes.length === 1 && inputTypes[0] === 'sid'`. -/
def onlySID (inputTypes : List InputType) : Bool :=
  match inputTypes with
  | [t] => t == InputType.sid
  | _ => false

/-- Source line 46: the test of `/^\+\d+/`, true when the string starts with
a literal plus sign followed by at least one ASCII digit. -/
def reTel (s : String) : Bool :=
  match s.data with
  | a :: b :: _ => a == '+' && b.isDigit
  | _ => false

/-- Source line 47: the test of the identifier pattern, true when the string
starts with literal `MG` followed by at least one ASCII alphanumeric. -/
def reSID (s : String) : Bool :=
  match s.data with
  | a :: b :: c :: _ => a == 'M' && b == 'G' && c.isAlphanum
  | _ => false

/-- Source lines 50-52: `inputTypes.includes('sid') && reSID.test(s)`. -/
def isSID (inputTypes : List InputType) (s : String) : Bool :=
  inputTypes.contains InputType.sid && reSID s

/-- Source lines 54-68: the `skipValidation` guard passed to `useQuery`'s
`skip` option (JS `!debouncedValue` is truth-testing of a string, i.e. the
empty-string check). -/
def skipValidation (inputTypes : List InputType) (disabled : Bool)
    (debouncedValue : String) : Bool :=
  if debouncedValue == "" || disabled || !(inputTypes.contains InputType.tel) then
    true
  else if onlyTel inputTypes && !(reTel debouncedValue) then
    true
  else if isSID inputTypes debouncedValue then
    true
  else if onlySID inputTypes then
    true
  else
    false

/-- Tri-state validation result of the remote lookup keyed by the debounced
value: no data / `valid: true` / `valid: false`. -/
inductive ValidationState
  | unknown
  | valid
  | invalid
deriving DecidableEq, Repr

/-- Source line 78: `Boolean(data?.phoneNumberInfo?.valid)` — only a resolved
`valid: true` produces `true`; absent data and `valid: false` give `false`. -/
def stateToBool : ValidationState → Bool
  | ValidationState.valid => true
  | _ => false

/-- The adornment rendered at the end of the text field. -/
inductive Adorn
  | noIcon
  | checkIcon
  | closeIcon
deriving DecidableEq, Repr

/-- Source lines 80-87: the adornment choice (`value === '' || isSID(value) ||
props.disabled` suppresses the icon; otherwise `valid` picks Check, else
Close). -/
def adorn (inputTypes : List InputType) (disabled : Bool) (value : String)
    (vs : ValidationState) : Adorn :=
  if value == "" || isSID inputTypes value || disabled then
    Adorn.noIcon
  else if stateToBool vs then
    Adorn.checkIcon
  else
    Adorn.closeIcon

/-- JS `String.prototype.trimLeft` restricted to ASCII whitespace: drop
leading whitespace characters. -/
def jsTrimLeft (s : String) : String :=
  String.mk (s.data.dropWhile Char.isWhitespace)

/-- Source line 114: the test of `/^[+\d(]/` on `e.target.value.trimLeft()` —
after trimming leading whitespace the first character is `+`, a digit,
or `(`. -/
def isLikeTel (s : String) : Bool :=
  match (jsTrimLeft s).data with
  | c :: _ => c == '+' || c.isDigit || c == '('
  | [] => false

/-- Source lines 110-123: `handleChange`.  `hasOnChange` models whether
`props.onChange` is configured; the result is `none` when no callback is
invoked and `some w` when the callback receives the (possibly rewritten)
value `w`.  The phone branch is `'+' + value.replace(/[^0-9]/g, '')`, the
identifier branch is `value.replace(/[^a-zA-Z0-9]/g, '')`. -/
def handleChange (hasOnChange : Bool) (inputTypes : List InputType)
    (v : String) : Option String :=
  if !hasOnChange then
    none
  else if v == "" then
    some v
  else if onlyTel inputTypes || isLikeTel v then
    some ("+" ++ String.mk (v.data.filter Char.isDigit))
  else
    some (String.mk (v.data.filter Char.isAlphanum))

/-- State of the debounce logic of source lines 36-44: the host-owned raw
`value`, the component's `debouncedValue`, the pending `setTimeout` (the
captured value and the instant at which it is due), and whether the
component is still mounted. -/
structure DebounceState where
  raw : String
  debounced : String
  pending : Option (String × Nat)
  mounted : Bool
deriving DecidableEq, Repr

/-- Events acting on the debounce state: a change of the raw value at time
`t` (React re-runs the effect: the cleanup `clearTimeout(t)` cancels the
previous timer and a new `setTimeout` is armed), an attempt of the timer
to fire at time `t`, and unmount (the cleanup clears any pending timer
and no further effects or setters run). -/
inductive DebounceEvent
  | change (v : String) (t : Nat)
  | fire (t : Nat)
  | unmount
deriving DecidableEq, Repr

/-- One step of the debounce machine of source lines 39-44.  A `change`
while mounted replaces any pending timer by a fresh one due `delay` later
(the old timer is cancelled, never fired).  A `fire` acts only when a
pending timer exists and is due, and then runs `setDebouncedValue(value)`
with the captured value.  `unmount` runs the effect cleanup
(`clearTimeout`) and stops the component. -/
def debStep (delay : Nat) (s : DebounceState) : DebounceEvent → DebounceState
  | DebounceEvent.change v t =>
      if s.mounted then
        { s with raw := v, pending := some (v, t + delay) }
      else
        s
  | DebounceEvent.fire t =>
      match s.pending with
      | some (v, d) => if d ≤ t then { s with debounced := v, pending := none } else s
      | none => s
  | DebounceEvent.unmount => { s with mounted := false, pending := none }

/-- Run of the debounce machine over a list of events. -/
def debRun (delay : Nat) (s : DebounceState) (es : List DebounceEvent) : DebounceState :=
  es.foldl (debStep delay) s

/-- Every state the debounce machine passes through while consuming a list
of events, the initial and final states included. -/
def debTrace (delay : Nat) (s : DebounceState) : List DebounceEvent → List DebounceState
  | [] => [s]
  | e :: es => s :: debTrace delay (debStep delay s e) es

/-- Claim C1: the remote validity lookup for the debounced value is skipped
if and only if at least one of the six conditions holds: the debounced value
is empty, the field is disabled, the mode does not include `tel`, the mode is
exactly tel-only and the value fails the phone pattern, the value matches the
identifier pattern and the mode includes `sid`, or the mode is exactly
sid-only; in particular, for tel-only mode with value "+14155551234" and the
field not disabled, the lookup is not skipped. -/
theorem skipValidation_iff_six_conditions :
    (∀ (inputTypes : List InputType) (disabled : Bool) (v : String),
      skipValidation inputTypes disabled v = true ↔
        (v = "" ∨ disabled = true ∨ inputTypes.contains InputType.tel = false ∨
          (onlyTel inputTypes = true ∧ reTel v = false) ∨
          (reSID v = true ∧ inputTypes.contains InputType.sid = true) ∨
          onlySID inputTypes = true)) ∧
    skipValidation [InputType.tel] false "+14155551234" = false := by
  refine ⟨fun inputTypes disabled v => ?_, by decide⟩
  unfold skipValidation isSID
  split_ifs with h1 h2 h3 h4 <;> cases hrs : reSID v <;> cases hrt : reTel v <;>
    simp_all <;> tauto

/-- Claim C9: with no change callback configured the change handler performs
no transformation and issues no notification, and with a callback configured
an empty new raw value is passed through unchanged, with no normalization
applied. -/
theorem handleChange_no_callback_and_empty :
    (∀ (inputTypes : List InputType) (v : String),
      handleChange false inputTypes v = none) ∧
    (∀ inputTypes : List InputType, handleChange true inputTypes "" = some "") :=
  ⟨fun _ _ => rfl, fun _ => rfl⟩

/-- Claim C10: the change handler treats sid-only mode and mixed mode
identically — it produces the same result for mode `[sid]` as for mode
`[tel, sid]` on every input and callback configuration — and more generally
its behaviour depends on the mode only through whether the mode is exactly
tel-only. -/
theorem handleChange_mode_only_through_onlyTel :
    (∀ (hasOnChange : Bool) (v : String),
      handleChange hasOnChange [InputType.sid] v
        = handleChange hasOnChange [InputType.tel, InputType.sid] v) ∧
    (∀ (hasOnChange : Bool) (m1 m2 : List InputType) (v : String),
      onlyTel m1 = onlyTel m2 →
      handleChange hasOnChange m1 v = handleChange hasOnChange m2 v) := by
  have key : ∀ (cb : Bool) (m1 m2 : List InputType) (v : String),
      onlyTel m1 = onlyTel m2 →
      handleChange cb m1 v = handleChange cb m2 v := by
    intro cb m1 m2 v h
    unfold handleChange
    rw [h]
  exact ⟨fun cb v => key cb _ _ v rfl, key⟩

/-- Concrete instance of the mode-irrelevance of the change handler: the
modes `[sid]` and `[tel, sid]` normalize "a+b" identically. -/
theorem handleChange_mode_only_through_onlyTel_witness :
    handleChange true [InputType.sid] "a+b"
      = handleChange true [InputType.tel, InputType.sid] "a+b" :=
  handleChange_mode_only_through_onlyTel.2 true [InputType.sid]
    [InputType.tel, InputType.sid] "a+b" (by decide)

/-- Claim C2 fails on the code: "MGabc" matches the identifier pattern, yet
with mode `[tel]` the classification function `isSID` returns false, so the
classification does depend on the mode. -/
theorem isSID_depends_on_mode :
    ¬ (isSID [InputType.tel] "MGabc" = true ↔ reSID "MGabc" = true) := by decide

/-- Claim C2 (amended): a string is classified as an identifier exactly when
the mode includes `sid` and the string starts with literal `MG` followed by
at least one alphanumeric character; the classification depends on the mode,
but only through whether the mode includes `sid`. -/
theorem isSID_characterization :
    ∀ (inputTypes : List InputType) (s : String),
      (isSID inputTypes s = true ↔
        (inputTypes.contains InputType.sid = true ∧
          ∃ c cs, s.data = 'M' :: 'G' :: c :: cs ∧ c.isAlphanum = true)) ∧
      (∀ m2 : List InputType,
        inputTypes.contains InputType.sid = m2.contains InputType.sid →
        isSID inputTypes s = isSID m2 s) := by
  intro inputTypes s
  constructor
  · unfold isSID reSID
    obtain ⟨l⟩ := s
    rcases l with _ | ⟨a, _ | ⟨b, _ | ⟨c, rest⟩⟩⟩ <;> simp_all
    intro _
    constructor
    · rintro ⟨⟨ha, hb⟩, hc⟩
      exact ⟨c, ⟨ha, hb, rfl⟩, hc⟩
    · rintro ⟨c1, ⟨ha, hb, hcc⟩, hc1⟩
      exact ⟨⟨ha, hb⟩, hcc ▸ hc1⟩
  · intro m2 h
    unfold isSID
    rw [h]

/-- Concrete instance of the amended identifier classification: modes `[sid]`
and `[sid, tel]` agree on their inclusion of `sid`, hence classify "MGa"
identically. -/
theorem isSID_characterization_witness :
    isSID [InputType.sid] "MGa" = isSID [InputType.sid, InputType.tel] "MGa" :=
  (isSID_characterization [InputType.sid] "MGa").2
    [InputType.sid, InputType.tel] (by decide)

/-- Claim C3 fails on the code: in sid-only mode `[sid]` the non-empty raw
input "1" looks phone-like, so the handler rewrites it to "+1", which is not
purely alphanumeric. -/
theorem handleChange_sid_only_not_alnum :
    handleChange true [InputType.sid] "1" = some "+1" ∧
      ("+1").data.all Char.isAlphanum = false := by decide

/-- Claim C3 (amended): for every non-empty raw input in sid-only mode
`[sid]`, with a change callback configured, whose leading-whitespace-trimmed
value does not start with `+`, a digit, or `(` (the phone-like test), the
normalized output contains only ASCII letters and digits. -/
theorem handleChange_sid_only_alnum :
    ∀ v : String, v ≠ "" → isLikeTel v = false →
      handleChange true [InputType.sid] v
        = some (String.mk (v.data.filter Char.isAlphanum)) ∧
      (String.mk (v.data.filter Char.isAlphanum)).data.all Char.isAlphanum = true := by
  intro v hne hlike
  constructor
  · unfold handleChange
    have h1 : (v == "") = false := by simp [hne]
    have h2 : onlyTel [InputType.sid] = false := by decide
    simp [h1, h2, hlike]
  · simp only [List.all_eq_true]
    intro c hc
    exact List.of_mem_filter hc

/-- Concrete instance of the amended sid-only normalization: the letter-led
input "ab,c" is stripped to its alphanumeric characters. -/
theorem handleChange_sid_only_alnum_witness :
    handleChange true [InputType.sid] "ab,c"
        = some (String.mk ("ab,c".data.filter Char.isAlphanum)) ∧
      (String.mk ("ab,c".data.filter Char.isAlphanum)).data.all Char.isAlphanum
        = true :=
  handleChange_sid_only_alnum "ab,c" (by decide) (by decide)

/-- Claim C4: the adornment icon is absent exactly when the raw value is
empty, or the raw value is classified as an identifier (the code's `isSID`,
i.e. the mode includes `sid` and the value matches the identifier pattern),
or the field is disabled; otherwise the check icon is shown exactly when the
validation state is `valid`, and the close icon in every other state
(`unknown` included).  In particular "MGxyz" in mixed mode shows no icon
regardless of the validation state, and the empty value shows no icon
regardless of mode, disabled flag and validation state. -/
theorem adorn_spec :
    (∀ (inputTypes : List InputType) (disabled : Bool) (value : String)
        (vs : ValidationState),
      (adorn inputTypes disabled value vs = Adorn.noIcon ↔
        (value = "" ∨ isSID inputTypes value = true ∨ disabled = true)) ∧
      (¬ (value = "" ∨ isSID inputTypes value = true ∨ disabled = true) →
        ((adorn inputTypes disabled value vs = Adorn.checkIcon ↔
            vs = ValidationState.valid) ∧
          (adorn inputTypes disabled value vs = Adorn.closeIcon ↔
            vs ≠ ValidationState.valid)))) ∧
    (∀ vs : ValidationState,
      adorn [InputType.tel, InputType.sid] false "MGxyz" vs = Adorn.noIcon) ∧
    (∀ (inputTypes : List InputType) (disabled : Bool) (vs : ValidationState),
      adorn inputTypes disabled "" vs = Adorn.noIcon) := by
  refine ⟨fun inputTypes disabled value vs => ?_, fun vs => ?_, fun i d vs => ?_⟩
  · unfold adorn
    cases vs <;> cases hs : isSID inputTypes value <;> split_ifs <;>
      simp_all [stateToBool]
  · cases vs <;> rfl
  · rfl

/-- Concrete instance of the adornment rule: a non-empty, non-identifier,
enabled value with a confirmed-valid lookup shows the check icon. -/
theorem adorn_spec_witness :
    adorn [InputType.tel] false "+1" ValidationState.valid = Adorn.checkIcon ↔
      ValidationState.valid = ValidationState.valid :=
  ((adorn_spec.1 [InputType.tel] false "+1" ValidationState.valid).2 (by decide)).1

/-- Claim C6: for every non-empty raw input in tel-only mode `[tel]`, with a
change callback configured, the handler strips every non-digit character
(any embedded `+` included) and prepends a single `+`, so the output is a
leading `+` followed only by digits. -/
theorem handleChange_tel_only_normal_form :
    ∀ v : String, v ≠ "" →
      handleChange true [InputType.tel] v
        = some ("+" ++ String.mk (v.data.filter Char.isDigit)) ∧
      ("+" ++ String.mk (v.data.filter Char.isDigit)).data
        = '+' :: v.data.filter Char.isDigit ∧
      (v.data.filter Char.isDigit).all Char.isDigit = true := by
  intro v hne
  refine ⟨?_, rfl, ?_⟩
  · unfold handleChange
    have h1 : (v == "") = false := by simp [hne]
    have h2 : onlyTel [InputType.tel] = true := by decide
    simp [h1, h2]
  · simp only [List.all_eq_true]
    intro c hc
    exact List.of_mem_filter hc

/-- Concrete instance of the tel-only normal form on the input "a+1b2". -/
theorem handleChange_tel_only_normal_form_witness :
    handleChange true [InputType.tel] "a+1b2"
        = some ("+" ++ String.mk ("a+1b2".data.filter Char.isDigit)) ∧
      ("+" ++ String.mk ("a+1b2".data.filter Char.isDigit)).data
        = '+' :: "a+1b2".data.filter Char.isDigit ∧
      ("a+1b2".data.filter Char.isDigit).all Char.isDigit = true :=
  handleChange_tel_only_normal_form "a+1b2" (by decide)

/-- A string matching the phone pattern (leading `+`) cannot match the
identifier pattern (leading `M`). -/
theorem reTel_imp_not_reSID (s : String) (h : reTel s = true) : reSID s = false := by
  obtain ⟨l⟩ := s
  rcases l with _ | ⟨a, _ | ⟨b, _ | ⟨c, rest⟩⟩⟩ <;> simp_all [reTel, reSID]

/-- A duplicate-free mode list that includes `tel` and not `sid` is exactly
`[tel]`. -/
theorem mode_shape (inputTypes : List InputType) (hnd : inputTypes.Nodup)
    (htel : inputTypes.contains InputType.tel = true)
    (hsid : inputTypes.contains InputType.sid = false) :
    inputTypes = [InputType.tel] := by
  rcases inputTypes with _ | ⟨a, _ | ⟨b, rest⟩⟩
  · simp at htel
  · cases a <;> simp_all
  · cases a <;> cases b <;> simp_all

/-- Claim C5: over all configured modes (duplicate-free lists of input
kinds), whenever the remote lookup is not skipped, the mode includes `tel`
and the debounced value does not match the identifier pattern. -/
theorem lookup_only_for_tel_non_identifier :
    ∀ (inputTypes : List InputType) (disabled : Bool) (v : String),
      inputTypes.Nodup →
      skipValidation inputTypes disabled v = false →
      inputTypes.contains InputType.tel = true ∧ reSID v = false := by
  intro inputTypes disabled v hnd hskip
  unfold skipValidation at hskip
  split_ifs at hskip with h1 h2 h3 h4
  simp only [Bool.or_eq_true, Bool.not_eq_true', beq_iff_eq, not_or] at h1
  have htel : inputTypes.contains InputType.tel = true := by
    have := h1.2
    simp only [Bool.not_eq_true'] at this
    simpa using this
  refine ⟨htel, ?_⟩
  by_cases hsid : inputTypes.contains InputType.sid = true
  · unfold isSID at h3
    rw [hsid] at h3
    simpa using h3
  · have hmode : inputTypes = [InputType.tel] :=
      mode_shape inputTypes hnd htel (by simpa using hsid)
    have honly : onlyTel inputTypes = true := by rw [hmode]; rfl
    have hretel : reTel v = true := by
      by_contra hneg
      have hf : reTel v = false := Bool.eq_false_iff.mpr hneg
      exact h2 (by simp [honly, hf])
    exact reTel_imp_not_reSID v hretel

/-- Concrete instance of the lookup invariant: in tel-only mode with value
"+1" the lookup is attempted, the mode includes `tel`, and the value is not
identifier-like. -/
theorem lookup_only_for_tel_non_identifier_witness :
    ([InputType.tel] : List InputType).contains InputType.tel = true ∧
      reSID "+1" = false :=
  lookup_only_for_tel_non_identifier [InputType.tel] false "+1"
    (by decide) (by decide)

/-- An ASCII letter is not a whitespace character. -/
theorem isAlpha_not_whitespace {c : Char} (h : c.isAlpha = true) :
    c.isWhitespace = false := by
  by_contra hw
  have hw' : c.isWhitespace = true := by simpa using hw
  simp only [Char.isWhitespace, Bool.or_eq_true, decide_eq_true_eq] at hw'
  rcases hw' with ((rfl | rfl) | rfl) | rfl <;> exact absurd h (by decide)

/-- An ASCII letter is not a decimal digit. -/
theorem isAlpha_not_digit {c : Char} (h : c.isAlpha = true) :
    c.isDigit = false := by
  simp only [Char.isAlpha, Char.isUpper, Char.isLower, Bool.or_eq_true,
    Bool.and_eq_true, decide_eq_true_eq, ge_iff_le] at h
  have hgt : ¬ (c.val ≤ 57) := by
    intro hle
    rcases h with ⟨h1, _⟩ | ⟨h1, _⟩
    · have h3 : (65 : UInt32).toNat ≤ c.val.toNat := h1
      have h4 : c.val.toNat ≤ (57 : UInt32).toNat := hle
      have h5 : (65 : Nat) ≤ 57 := le_trans (by simpa using h3) (by simpa using h4)
      omega
    · have h3 : (97 : UInt32).toNat ≤ c.val.toNat := h1
      have h4 : c.val.toNat ≤ (57 : UInt32).toNat := hle
      have h5 : (97 : Nat) ≤ 57 := le_trans (by simpa using h3) (by simpa using h4)
      omega
  simp only [Char.isDigit]
  rw [decide_eq_false hgt, Bool.and_false]

/-- An ASCII letter is not the plus sign. -/
theorem isAlpha_ne_plus {c : Char} (h : c.isAlpha = true) : (c == '+') = false := by
  by_contra hb
  have : c = '+' := by simpa using hb
  subst this
  exact absurd h (by decide)

/-- An ASCII letter is not the opening parenthesis. -/
theorem isAlpha_ne_paren {c : Char} (h : c.isAlpha = true) : (c == '(') = false := by
  by_contra hb
  have : c = '(' := by simpa using hb
  subst this
  exact absurd h (by decide)

/-- Claim C7 fails on the code: in tel-only mode the already-alphanumeric
value "abc" is rewritten to "+", and in sid-only mode the alphanumeric value
"1a" (leading digit) is rewritten to "+1"; neither is a fixed point. -/
theorem handleChange_not_idempotent :
    handleChange true [InputType.tel] "abc" ≠ some "abc" ∧
      handleChange true [InputType.sid] "1a" ≠ some "1a" := by decide

/-- Claim C7 (amended): for every mode, normalizing a value already in
normalized phone form (`+` followed by one or more digits) yields that same
value; normalizing a value already in normalized identifier form
(alphanumeric, non-empty) yields that same value provided the mode is not
exactly tel-only and the value begins with a letter. -/
theorem handleChange_idempotent_amended :
    ∀ (inputTypes : List InputType) (v : String),
      ((∃ c cs, v.data = '+' :: c :: cs ∧ c.isDigit = true ∧
          cs.all Char.isDigit = true) →
        handleChange true inputTypes v = some v) ∧
      ((∃ c cs, v.data = c :: cs ∧ c.isAlpha = true ∧
          cs.all Char.isAlphanum = true) →
        onlyTel inputTypes = false →
        handleChange true inputTypes v = some v) := by
  intro inputTypes v
  constructor
  · rintro ⟨c, cs, hd, hc, hcs⟩
    have hvne : v ≠ "" := by
      intro h0
      rw [h0] at hd
      exact absurd hd (by simp)
    have hne : (v == "") = false := by simp [hvne]
    have hlike : isLikeTel v = true := by
      unfold isLikeTel jsTrimLeft
      have hdrop : v.data.dropWhile Char.isWhitespace = '+' :: c :: cs := by
        rw [hd, List.dropWhile_cons]
        simp
      simp [hdrop]
    have hall : ∀ a ∈ cs, Char.isDigit a = true := by
      simpa [List.all_eq_true] using hcs
    have hfil : v.data.filter Char.isDigit = c :: cs := by
      rw [hd, List.filter_cons_of_neg (by simp), List.filter_cons_of_pos hc,
        List.filter_eq_self.mpr (by simpa using hall)]
    unfold handleChange
    rw [hne, hlike]
    simp only [Bool.not_true, Bool.false_eq_true, if_false, Bool.or_true, if_true]
    refine congrArg some (String.ext ?_)
    show ('+' :: v.data.filter Char.isDigit) = v.data
    rw [hfil, hd]
  · rintro ⟨c, cs, hd, hc, hcs⟩ honly
    have hvne : v ≠ "" := by
      intro h0
      rw [h0] at hd
      exact absurd hd (by simp)
    have hne : (v == "") = false := by simp [hvne]
    have hlike : isLikeTel v = false := by
      unfold isLikeTel jsTrimLeft
      have hdrop : v.data.dropWhile Char.isWhitespace = c :: cs := by
        rw [hd, List.dropWhile_cons]
        simp [isAlpha_not_whitespace hc]
      simp [hdrop, isAlpha_ne_plus hc, isAlpha_ne_paren hc, isAlpha_not_digit hc]
    have hall : ∀ a ∈ cs, Char.isAlphanum a = true := by
      simpa [List.all_eq_true] using hcs
    have hfil : v.data.filter Char.isAlphanum = c :: cs := by
      rw [hd, List.filter_cons_of_pos (by simp [Char.isAlphanum, hc]),
        List.filter_eq_self.mpr (by simpa using hall)]
    unfold handleChange
    rw [hne, hlike, honly]
    simp only [Bool.not_true, Bool.false_eq_true, if_false, Bool.or_false, if_true]
    refine congrArg some (String.ext ?_)
    show v.data.filter Char.isAlphanum = v.data
    rw [hfil, hd]

/-- Concrete instances of the amended idempotence: "+12" is a fixed point in
sid-only mode, and "ab1" is a fixed point in mixed mode. -/
theorem handleChange_idempotent_amended_witness :
    handleChange true [InputType.sid] "+12" = some "+12" ∧
      handleChange true [InputType.tel, InputType.sid] "ab1" = some "ab1" :=
  ⟨(handleChange_idempotent_amended [InputType.sid] "+12").1
      ⟨'1', ['2'], rfl, by decide, by decide⟩,
    (handleChange_idempotent_amended [InputType.tel, InputType.sid] "ab1").2
      ⟨'a', ['b', '1'], rfl, by decide, by decide⟩ (by decide)⟩

/-- A fire attempt strictly before the pending timer's due instant leaves
the state unchanged: the timer does not go off early. -/
theorem debStep_fire_early (delay : Nat) (s : DebounceState) (v1 : String)
    (t1 t : Nat) (hp : s.pending = some (v1, t1 + delay)) (ht : t < t1 + delay) :
    debStep delay s (DebounceEvent.fire t) = s := by
  unfold debStep
  rw [hp]
  simp [Nat.not_le.mpr ht]

/-- While a timer armed at `t1` is pending, early fire attempts change
nothing; a subsequent change at `t2` re-arms the timer for the new value.
All intermediate states keep the original debounced value. -/
theorem debounce_mid_aux (delay : Nat) (d0 : String) (s1 : DebounceState)
    (v1 v2 : String) (t1 t2 : Nat)
    (hp : s1.pending = some (v1, t1 + delay))
    (hm : s1.mounted = true) (hd : s1.debounced = d0) :
    ∀ mid : List DebounceEvent,
      (∀ e ∈ mid, ∃ t, e = DebounceEvent.fire t ∧ t < t1 + delay) →
      (∀ s' ∈ debTrace delay s1 (mid ++ [DebounceEvent.change v2 t2]),
          s'.debounced = d0) ∧
      debRun delay s1 (mid ++ [DebounceEvent.change v2 t2])
        = { s1 with raw := v2, pending := some (v2, t2 + delay) } := by
  intro mid
  induction mid with
  | nil =>
    intro _
    constructor
    · intro s' hs'
      simp only [List.nil_append, debTrace, List.mem_cons, List.mem_singleton] at hs'
      rcases hs' with rfl | hs'
      · exact hd
      · have hstep : debStep delay s1 (DebounceEvent.change v2 t2)
            = { s1 with raw := v2, pending := some (v2, t2 + delay) } := by
          unfold debStep
          rw [hm]
          simp
        have hs'' : s' = { s1 with raw := v2, pending := some (v2, t2 + delay) } := by
          simpa [debTrace, hstep] using hs'
        rw [hs'']
        exact hd
    · have hstep : debStep delay s1 (DebounceEvent.change v2 t2)
          = { s1 with raw := v2, pending := some (v2, t2 + delay) } := by
        unfold debStep
        rw [hm]
        simp
      simp only [List.nil_append, debRun, List.foldl_cons, List.foldl_nil]
      exact hstep
  | cons e mid ih =>
    intro hmid
    obtain ⟨t, rfl, ht⟩ := hmid e (List.mem_cons_self e mid)
    have hnoop : debStep delay s1 (DebounceEvent.fire t) = s1 :=
      debStep_fire_early delay s1 v1 t1 t hp ht
    have ihm := ih (fun e' he' => hmid e' (List.mem_cons_of_mem _ he'))
    constructor
    · intro s' hs'
      simp only [List.cons_append, debTrace, List.mem_cons] at hs'
      rcases hs' with rfl | hs'
      · exact hd
      · rw [hnoop] at hs'
        exact ihm.1 s' hs'
    · simp only [List.cons_append, debRun, List.foldl_cons]
      rw [show List.foldl (debStep delay) (debStep delay s1 (DebounceEvent.fire t))
            (mid ++ [DebounceEvent.change v2 t2])
          = debRun delay (debStep delay s1 (DebounceEvent.fire t))
            (mid ++ [DebounceEvent.change v2 t2]) from rfl, hnoop]
      exact ihm.2

/-- Once the component is unmounted and its pending timer cleared, no event
changes the state at all. -/
theorem debRun_halted (delay : Nat) (s : DebounceState)
    (hm : s.mounted = false) (hp : s.pending = none) :
    ∀ es : List DebounceEvent, debRun delay s es = s := by
  intro es
  induction es with
  | nil => rfl
  | cons e es ih =>
    have hstep : debStep delay s e = s := by
      cases e with
      | change v t => unfold debStep; rw [hm]; simp
      | fire t => unfold debStep; rw [hp]
      | unmount =>
        unfold debStep
        cases s
        simp_all
    simp only [debRun, List.foldl_cons, hstep]
    exact ih

/-- Claim C8: a change of the raw value cancels the previously scheduled
update and schedules a single new one, due a fixed delay later, that sets
the debounced value to the new raw value; if the raw value changes twice
within less than the delay (any early fire attempts in between), the first
value never becomes the debounced value — the debounced value is unchanged
throughout and the pending timer afterwards carries the second value, which
a due fire then installs; and after unmount no sequence of events ever
mutates the debounced value. -/
theorem debounce_supersession :
    (∀ (delay : Nat) (s : DebounceState) (v : String) (t : Nat),
      s.mounted = true →
      debStep delay s (DebounceEvent.change v t)
        = { s with raw := v, pending := some (v, t + delay) }) ∧
    (∀ (delay : Nat) (s : DebounceState) (v1 : String) (t1 : Nat) (v2 : String)
        (t2 : Nat) (mid : List DebounceEvent),
      s.mounted = true →
      (∀ e ∈ mid, ∃ t, e = DebounceEvent.fire t ∧ t < t1 + delay) →
      t2 < t1 + delay →
      (∀ s' ∈ debTrace delay (debStep delay s (DebounceEvent.change v1 t1))
          (mid ++ [DebounceEvent.change v2 t2]),
        s'.debounced = s.debounced) ∧
      (debRun delay (debStep delay s (DebounceEvent.change v1 t1))
          (mid ++ [DebounceEvent.change v2 t2])).pending
        = some (v2, t2 + delay) ∧
      (debStep delay
        (debRun delay (debStep delay s (DebounceEvent.change v1 t1))
          (mid ++ [DebounceEvent.change v2 t2]))
        (DebounceEvent.fire (t2 + delay))).debounced = v2) ∧
    (∀ (delay : Nat) (s : DebounceState) (es : List DebounceEvent),
      (debRun delay (debStep delay s DebounceEvent.unmount) es).debounced
        = s.debounced) := by
  have hchange : ∀ (delay : Nat) (s : DebounceState) (v : String) (t : Nat),
      s.mounted = true →
      debStep delay s (DebounceEvent.change v t)
        = { s with raw := v, pending := some (v, t + delay) } := by
    intro delay s v t hm
    unfold debStep
    rw [hm]
    simp
  refine ⟨hchange, ?_, ?_⟩
  · intro delay s v1 t1 v2 t2 mid hm hmid ht2
    have hs1 := hchange delay s v1 t1 hm
    set s1 := debStep delay s (DebounceEvent.change v1 t1) with hs1def
    have hp : s1.pending = some (v1, t1 + delay) := by rw [hs1]
    have hm1 : s1.mounted = true := by rw [hs1]; exact hm
    have hd1 : s1.debounced = s.debounced := by rw [hs1]
    obtain ⟨htr, hrun⟩ := debounce_mid_aux delay s.debounced s1 v1 v2 t1 t2
      hp hm1 hd1 mid hmid
    refine ⟨htr, ?_, ?_⟩
    · rw [hrun]
    · rw [hrun]
      unfold debStep
      simp
  · intro delay s es
    have hm : (debStep delay s DebounceEvent.unmount).mounted = false := by
      unfold debStep
      rfl
    have hp : (debStep delay s DebounceEvent.unmount).pending = none := by
      unfold debStep
      rfl
    rw [debRun_halted delay _ hm hp es]
    unfold debStep
    rfl

/-- Concrete instance of the debounce supersession: with delay 10, a change
to "first" at instant 0, an early fire attempt at instant 3, a change to
"second" at instant 5 and a due fire at instant 15, the debounced value
ends as "second" (and "first" was never installed). -/
theorem debounce_supersession_witness :
    (debStep 10
      (debRun 10
        (debStep 10 ⟨"", "", none, true⟩ (DebounceEvent.change "first" 0))
        ([DebounceEvent.fire 3] ++ [DebounceEvent.change "second" 5]))
      (DebounceEvent.fire 15)).debounced = "second" :=
  (debounce_supersession.2.1 10 ⟨"", "", none, true⟩ "first" 0 "second" 5
    [DebounceEvent.fire 3] rfl
    (by
      intro e he
      simp only [List.mem_singleton] at he
      subst he
      exact ⟨3, rfl, by decide⟩)
    (by decide)).2.2

